import Mathlib

/-!
Shallow embedding of the async_hard_parser pipeline (parser.py, utils.py,
config.py, importer.py, tasks.py) and proofs about it.

Network I/O is abstracted by oracles: a page fetch is a function from page
number to the optional goods list the request produced, the price endpoint
is a function from the requested batch to the optional response, and the
HTTP adapter's per-attempt outcomes are a function from attempt index to
outcome.  JSON dictionaries are modelled as association lists with Python
`dict` assignment (overwrite) semantics.
-/

/-! ## config.py -/

def RETRIES : Nat := 3

def BATCH_SIZE : Nat := 200

def MAX_CONCURRENT_REQUESTS : Nat := 5

/-! ## parser.py : data model -/

/-- The `Product` dataclass of parser.py, with its field defaults. -/
structure Product where
  id : Int := 0
  name : String := ""
  link : String := ""
  regular_price : Int := 0
  promo_price : Int := 0
  brand : String := "Unknown"
deriving Repr, DecidableEq

/-- One entry of the `goods` array of a catalog page response: the fields
`add_products_from_data` reads.  A missing `brand_name` key is `none`; a
missing or falsy `isAvailable` key is `false`. -/
structure Item where
  id : Int
  title : String
  webpage : String
  brand_name : Option String
  isAvailable : Bool
deriving Repr, DecidableEq

/-- `add_products_from_data` (parser.py): keep the available items and turn
each into a bare `Product` (prices left at their defaults). -/
def add_products_from_data (goods : List Item) : List Product :=
  goods.filterMap (fun item =>
    if item.isAvailable then
      some { id := item.id, name := item.title, link := item.webpage,
             brand := item.brand_name.getD "Unknown" }
    else none)

/-- `fetch_and_add_products` (parser.py): request one page (the oracle
`pageFetch` yields the goods list when the response has the
`data`/`goods` keys, `none` otherwise — including a request that failed
after the adapter's retries and returned `{}`) and extract the available
products; an ill-shaped or empty response contributes `[]`. -/
def fetch_and_add_products (pageFetch : Nat → Option (List Item)) (page : Nat) :
    List Product :=
  match pageFetch page with
  | some goods => add_products_from_data goods
  | none => []

/-- The part of the page-1 catalog response that `fetch_products` reads:
`data.goods` plus the optional `total_pages` / `total_items` counters
(`dict.get` with defaults 1 and 0). -/
structure CatalogData where
  goods : List Item
  total_pages : Option Int
  total_items : Option Int
deriving Repr, DecidableEq

/-- `fetch_products` (parser.py).  `firstResp` is the page-1 response
(`none` when `data`/`goods` is missing, which includes a failed request).
The result type records the actual shape the Python function builds:
`products` starts as the flat page-1 list, and
`products.extend(additional_products)` appends each *page list* produced
by `asyncio.gather` as a single element, so every page `2 ≤ p ≤
total_pages` contributes one `Sum.inr` element holding that page's
product list. -/
def fetch_products (firstResp : Option CatalogData)
    (pageFetch : Nat → Option (List Item)) (min_goods : Int) :
    List (Product ⊕ List Product) :=
  match firstResp with
  | none => []
  | some d =>
    let total_pages := d.total_pages.getD 1
    let total_items := d.total_items.getD 0
    if total_items ≤ min_goods then []
    else
      let products := (fetch_and_add_products pageFetch 1).map Sum.inl
      let additional_products :=
        (List.range' 2 (total_pages - 1).toNat).map
          (fun page => Sum.inr (fetch_and_add_products pageFetch page))
      products ++ additional_products

/-- The filter `fetch_products_task` (tasks.py) applies to the value
returned by `fetch_products`: keep only the entries that are `Product`
instances (`isinstance(product, Product)`), dropping the nested page
lists. -/
def fetch_products_task_filter (l : List (Product ⊕ List Product)) :
    List Product :=
  l.filterMap (fun e => match e with | .inl p => some p | .inr _ => none)

/-! ### Concrete run used to evaluate `fetch_products` on two pages -/

def item1 : Item := { id := 1, title := "a", webpage := "u1",
                      brand_name := none, isAvailable := true }

def item2 : Item := { id := 2, title := "b", webpage := "u2",
                      brand_name := some "B", isAvailable := true }

def item3 : Item := { id := 3, title := "c", webpage := "u3",
                      brand_name := none, isAvailable := true }

/-- Page oracle for the two-page run: page 1 has one available item,
page 2 has two. -/
def twoPageFetch : Nat → Option (List Item) := fun page =>
  if page = 1 then some [item1]
  else if page = 2 then some [item2, item3] else none

def prod1 : Product := { id := 1, name := "a", link := "u1" }

def prod2 : Product := { id := 2, name := "b", link := "u2", brand := "B" }

def prod3 : Product := { id := 3, name := "c", link := "u3" }

/-- C1: fetch_products does not return a flat list of Product values: on a
run with total_pages = 2, total_items = 3 > min_goods = 1, one available
item on page 1 and two on page 2, the returned list has only 2 elements —
the page-1 product and a single nested element holding the whole page-2
list — and the isinstance filter applied downstream in tasks.py then
drops both page-2 products. -/
theorem fetch_products_not_flat :
    fetch_products (some { goods := [item1], total_pages := some 2,
                           total_items := some 3 })
        twoPageFetch 1
      = [Sum.inl prod1, Sum.inr [prod2, prod3]]
    ∧ (fetch_products (some { goods := [item1], total_pages := some 2,
                              total_items := some 3 })
        twoPageFetch 1).length = 2
    ∧ fetch_products_task_filter
        (fetch_products (some { goods := [item1], total_pages := some 2,
                                total_items := some 3 })
          twoPageFetch 1) = [prod1] := by
  refine ⟨?_, ?_, ?_⟩ <;> decide

/-- C9: when the page-1 catalog response reports `total_items ≤ min_goods`,
`fetch_products` returns the empty list without fetching any product
page. -/
theorem fetch_products_gate (d : CatalogData)
    (pageFetch : Nat → Option (List Item)) (min_goods ti : Int)
    (h1 : d.total_items = some ti) (h2 : ti ≤ min_goods) :
    fetch_products (some d) pageFetch min_goods = [] := by
  simp [fetch_products, h1, h2]

/-- Witness for `fetch_products_gate`: total_items = 3 ≤ min_goods = 5
gives an empty result. -/
theorem fetch_products_gate_witness :
    fetch_products (some { goods := [item1], total_pages := some 2,
                           total_items := some 3 })
        twoPageFetch 5 = [] :=
  fetch_products_gate _ twoPageFetch 5 3 rfl (by decide)

/-! ## parser.py : fetch_data (the HTTP client adapter) -/

/-- A returned JSON document, abstracted to an association list; `[]`
stands for the empty dict `{}`. -/
abbrev JsonDict := List (String × String)

/-- What one HTTP attempt inside `fetch_data` does: either the request
raises `aiohttp.ClientError` (a transport-level failure — connection
error, timeout), or a response with the given status code and JSON body
arrives. -/
inductive HttpOutcome where
  | err
  | resp (status : Nat) (body : JsonDict)
deriving Repr, DecidableEq

/-- The externally visible events of one `fetch_data` call: an HTTP
request issued, or an `asyncio.sleep` of the given number of seconds. -/
inductive FetchEvent where
  | request
  | sleep (secs : Nat)
deriving Repr, DecidableEq

/-- The `while attempt < RETRIES` loop of `fetch_data`, with
`fuel = RETRIES - attempt` making termination explicit (the fuel-0 value
is never reached from `fetch_data` because the `attempt + 1 < RETRIES`
check returns `{}` before the counter can reach `RETRIES`).
At each attempt: a status-200 response returns its body; any other
status logs and returns `{}` at once; a transport error increments the
counter, sleeps 2 seconds and retries while attempts remain, and returns
`{}` once `RETRIES` attempts are exhausted.  The second component is the
trace of requests and sleeps, in order. -/
def fetch_data_aux (oracle : Nat → HttpOutcome) :
    Nat → Nat → JsonDict × List FetchEvent
  | _, 0 => ([], [])
  | attempt, fuel + 1 =>
    match oracle attempt with
    | .resp status body =>
      if status = 200 then (body, [.request])
      else ([], [.request])
    | .err =>
      if attempt + 1 < RETRIES then
        let rest := fetch_data_aux oracle (attempt + 1) fuel
        (rest.1, .request :: .sleep 2 :: rest.2)
      else ([], [.request])

/-- `fetch_data` (parser.py): run the retry loop from attempt 0.  The
oracle gives the outcome of each attempt; the result is the returned
JSON dict together with the request/sleep trace.  The function is total:
every path returns a value, so no exception crosses to the caller. -/
def fetch_data (oracle : Nat → HttpOutcome) : JsonDict × List FetchEvent :=
  fetch_data_aux oracle 0 RETRIES

/-- The trace of one `fetch_data` call takes one of three shapes: a
single request (a response arrived at once), or one or two
request/2-second-sleep rounds followed by a final request. -/
theorem fetch_data_trace_shapes (o : Nat → HttpOutcome) :
    (fetch_data o).2 = [.request]
    ∨ (fetch_data o).2 = [.request, .sleep 2, .request]
    ∨ (fetch_data o).2
        = [.request, .sleep 2, .request, .sleep 2, .request] := by
  cases h0 : o 0 with
  | resp s b =>
    by_cases hs : s = 200 <;> simp [fetch_data, fetch_data_aux, RETRIES, h0, hs]
  | err =>
    cases h1 : o 1 with
    | resp s b =>
      by_cases hs : s = 200 <;>
        simp [fetch_data, fetch_data_aux, RETRIES, h0, h1, hs]
    | err =>
      cases h2 : o 2 with
      | resp s b =>
        by_cases hs : s = 200 <;>
          simp [fetch_data, fetch_data_aux, RETRIES, h0, h1, h2, hs]
      | err =>
        simp [fetch_data, fetch_data_aux, RETRIES, h0, h1, h2]

/-- C5: when every attempt fails at the transport level, `fetch_data`
issues exactly `RETRIES = 3` requests separated by fixed 2-second sleeps
and returns the empty result; moreover for every oracle the call makes
at most `RETRIES` requests and every sleep in the trace is exactly 2
seconds (fixed, not exponential), and the call always returns a value
rather than propagating an exception. -/
theorem fetch_data_retry_policy (oracle : Nat → HttpOutcome)
    (h : ∀ i, i < RETRIES → oracle i = .err) :
    fetch_data oracle
      = ([], [.request, .sleep 2, .request, .sleep 2, .request])
    ∧ ∀ o : Nat → HttpOutcome,
        (fetch_data o).2.count .request ≤ RETRIES
        ∧ ∀ s, FetchEvent.sleep s ∈ (fetch_data o).2 → s = 2 := by
  constructor
  · simp [fetch_data, fetch_data_aux, RETRIES,
          h 0 (by decide), h 1 (by decide), h 2 (by decide)]
  · intro o
    rcases fetch_data_trace_shapes o with ht | ht | ht <;>
      rw [ht] <;>
      exact ⟨by decide, by intro s hs; simp at hs; try omega⟩

/-- Witness for `fetch_data_retry_policy`: the always-failing oracle. -/
theorem fetch_data_retry_policy_witness :
    fetch_data (fun _ => .err)
      = ([], [.request, .sleep 2, .request, .sleep 2, .request]) :=
  (fetch_data_retry_policy (fun _ => .err) (fun _ _ => rfl)).1

/-- C6: a response with a non-success status code makes `fetch_data` log
and return the empty result immediately: exactly one request is issued
and no sleep happens — the retry policy never applies to
application-level error statuses. -/
theorem fetch_data_no_retry_on_error_status (oracle : Nat → HttpOutcome)
    (s : Nat) (body : JsonDict)
    (h0 : oracle 0 = .resp s body) (hs : s ≠ 200) :
    fetch_data oracle = ([], [.request]) := by
  simp [fetch_data, fetch_data_aux, RETRIES, h0, hs]

/-- Witness for `fetch_data_no_retry_on_error_status`: a 404 response on
the first attempt. -/
theorem fetch_data_no_retry_on_error_status_witness :
    fetch_data (fun _ => .resp 404 [("detail", "not found")])
      = ([], [.request]) :=
  fetch_data_no_retry_on_error_status _ 404 [("detail", "not found")]
    rfl (by decide)

/-! ## utils.py : get_sign -/

/-- `get_sign` (utils.py): MD5-hash each value of the parameter dict
independently, sort the hex digests lexicographically, concatenate them
after the shared secret salt and hash the result.  The dict is modelled
as its insertion-ordered key/value list; `md5` abstracts
`lambda s: md5(str(s).encode()).hexdigest()` and `salt` is
`config.SALT`. -/
def get_sign (md5 : String → String) (salt : String)
    (data : List (String × String)) : String :=
  md5 (salt ++
    String.join ((data.map (fun kv => md5 kv.2)).insertionSort (· ≤ ·)))

/-- C8: the signature is invariant under any re-ordering of the
parameter mapping's insertion order, because the per-value digests are
sorted before concatenation. -/
theorem get_sign_insertion_order_invariant (md5 : String → String)
    (salt : String) (data dataReordered : List (String × String))
    (h : data.Perm dataReordered) :
    get_sign md5 salt data = get_sign md5 salt dataReordered := by
  unfold get_sign
  have hperm :
      (data.map (fun kv => md5 kv.2)).insertionSort (· ≤ ·)
        = (dataReordered.map (fun kv => md5 kv.2)).insertionSort (· ≤ ·) := by
    refine List.eq_of_perm_of_sorted ?_
      (List.sorted_insertionSort _ _) (List.sorted_insertionSort _ _)
    exact (List.perm_insertionSort _ _).trans
      ((h.map _).trans (List.perm_insertionSort _ _).symm)
  rw [hperm]

/-- Witness for `get_sign_insertion_order_invariant`: a two-entry mapping
and its reversal give the same signature. -/
theorem get_sign_insertion_order_invariant_witness :
    get_sign (fun s => s ++ "#") "salt"
        [("token", "t1"), ("page", "2")]
      = get_sign (fun s => s ++ "#") "salt"
        [("page", "2"), ("token", "t1")] :=
  get_sign_insertion_order_invariant _ _ _ _ (by decide)

/-! ## importer.py and tasks.py : persistence -/

/-- A write performed by one of the three writers of importer.py. -/
inductive SaveEff where
  | json (filename : String) (products : List Product)
  | csv (filename : String) (products : List Product)
  | xlsx (filename : String) (products : List Product)
deriving Repr, DecidableEq

/-- `filename.split('.')[-1].lower()` from `save_all` (importer.py):
the text after the last dot (the whole name when there is no dot),
lowercased. -/
def file_extension (filename : String) : String :=
  (((filename.split (fun c => c = '.')).getLast?).getD "").toLower

/-- The body of the coroutine `save_all(products, filename)`
(importer.py): what running it to completion would do — dispatch on the
filename extension to the JSON/CSV/XLSX writer, or raise
`ValueError` for any other extension.  First component: the writes
performed; second: the raised error, if any. -/
def save_all_body (products : List Product) (filename : String) :
    List SaveEff × Option String :=
  let ext := file_extension filename
  if ext = "json" then ([.json filename products], none)
  else if ext = "csv" then ([.csv filename products], none)
  else if ext = "xlsx" then ([.xlsx filename products], none)
  else ([], some "Unsupported file format. Use json, csv, or xlsx.")

/-- A Python coroutine object: calling an `async def` evaluates the
arguments and returns such an object without running any of the body;
the body runs only when the coroutine is awaited. -/
structure PyCoroutine where
  body : List SaveEff × Option String
deriving Repr, DecidableEq

/-- Awaiting a coroutine runs its body: the writes happen and any raised
error surfaces. -/
def PyCoroutine.awaited (c : PyCoroutine) : List SaveEff × Option String :=
  c.body

/-- `save_all(products, filename)` as the *call expression* appearing in
tasks.py line 19: since `save_all` is `async def`, the call only
constructs the coroutine object; nothing in `save_all_body` executes. -/
def save_all (products : List Product) (filename : String) : PyCoroutine :=
  { body := save_all_body products filename }

/-- The Celery task `save_products` (tasks.py): a synchronous function
whose body is the bare call `save_all(products, filename)` with no
`await` and no event loop.  The constructed coroutine is discarded, so
the effects actually performed by the task are none and no exception is
raised.  The result is the (writes, raised error) pair the task
produces. -/
def save_products (products : List Product) (filename : String) :
    List SaveEff × Option String :=
  let _unawaited : PyCoroutine := save_all products filename
  ([], none)

/-- C3: `save_products` performs no write and raises no error on any
input — the coroutine built from `save_all` is never awaited — while
awaiting that same coroutine would have run exactly the writer selected
by the filename extension, or raised `ValueError` on an unsupported
extension.  The records handed to the task are thus silently
discarded. -/
theorem save_products_writes_nothing (products : List Product)
    (filename : String) :
    save_products products filename = ([], none)
    ∧ (save_all products filename).awaited
        = save_all_body products filename := by
  exact ⟨rfl, rfl⟩

/-! ## parser.py : fetch_prices — deduplication and batching -/

/-- The slicing loop of `fetch_prices`
(`for i in range(0, len(l), k): l[i:i+k]`), written recursively: split
`l` into consecutive chunks of `k` elements, the last chunk possibly
shorter.  For `k ≥ 1` this is exactly the Python loop (the code only
ever uses `k = BATCH_SIZE = 200`). -/
def chunksOf {α : Type} (k : Nat) : List α → List (List α)
  | [] => []
  | x :: xs => (x :: xs.take (k - 1)) :: chunksOf k (xs.drop (k - 1))
termination_by l => l.length
decreasing_by simp; omega

/-- The batches `fetch_prices` dispatches (one POST request each):
`unique_offers = list(set(product_ids))` deduplicates the ids (Python's
set iteration order is unspecified; first-occurrence order is the
representative — the properties proved below do not depend on the
order), then the slicing loop groups them into `BATCH_SIZE`-sized
batches. -/
def fetch_prices_batches (product_ids : List Int) : List (List Int) :=
  chunksOf BATCH_SIZE product_ids.dedup

theorem chunksOf_cons {α : Type} (k : Nat) (hk : 0 < k) (x : α)
    (xs : List α) :
    chunksOf k (x :: xs) = (x :: xs).take k :: chunksOf k ((x :: xs).drop k) := by
  obtain ⟨j, rfl⟩ : ∃ j, k = j + 1 := ⟨k - 1, by omega⟩
  simp [chunksOf]

theorem chunksOf_length {α : Type} (k : Nat) (hk : 0 < k) (l : List α) :
    (chunksOf k l).length = (l.length + k - 1) / k := by
  induction l using chunksOf.induct k with
  | case1 => simp [chunksOf, Nat.div_eq_of_lt (by omega : k - 1 < k)]
  | case2 x xs ih =>
    obtain ⟨j, rfl⟩ : ∃ j, k = j + 1 := ⟨k - 1, by omega⟩
    rw [chunksOf, List.length_cons, ih, List.length_drop]
    simp only [List.length_cons, Nat.add_sub_cancel]
    have h1 : xs.length + 1 + (j + 1) - 1 = xs.length + (j + 1) := by omega
    rw [h1, Nat.add_div_right _ (by omega : 0 < j + 1)]
    have h2 : xs.length - j + (j + 1) - 1 = xs.length - j + j := by omega
    rw [h2]
    rcases le_or_lt j xs.length with hle | hlt
    · rw [Nat.sub_add_cancel hle]
    · rw [Nat.div_eq_of_lt (by omega), Nat.div_eq_of_lt (by omega)]

theorem chunksOf_flatten {α : Type} (k : Nat) (l : List α) :
    (chunksOf k l).flatten = l := by
  induction l using chunksOf.induct k with
  | case1 => simp [chunksOf]
  | case2 x xs ih =>
    rw [chunksOf, List.flatten_cons, ih]
    simp [List.take_append_drop]

theorem countP_mem_of_sum_counts_zero {α : Type} [DecidableEq α] (x : α)
    (bs : List (List α)) (h : (bs.map (List.count x)).sum = 0) :
    bs.countP (fun b => decide (x ∈ b)) = 0 := by
  induction bs with
  | nil => rfl
  | cons b bs ih =>
    rw [List.map_cons, List.sum_cons] at h
    have hb : List.count x b = 0 := by omega
    have hbs : (bs.map (List.count x)).sum = 0 := by omega
    have hxb : x ∉ b := List.count_eq_zero.mp hb
    rw [List.countP_cons, ih hbs]
    simp [hxb]

theorem countP_mem_of_sum_counts_one {α : Type} [DecidableEq α] (x : α)
    (bs : List (List α)) (h : (bs.map (List.count x)).sum = 1) :
    bs.countP (fun b => decide (x ∈ b)) = 1 := by
  induction bs with
  | nil => simp at h
  | cons b bs ih =>
    rw [List.map_cons, List.sum_cons] at h
    rcases Nat.eq_zero_or_pos (List.count x b) with hb | hb
    · have hxb : x ∉ b := List.count_eq_zero.mp hb
      rw [List.countP_cons, ih (by omega)]
      simp [hxb]
    · have hxb : x ∈ b := List.count_pos_iff.mp hb
      have hbs : (bs.map (List.count x)).sum = 0 := by omega
      rw [List.countP_cons, countP_mem_of_sum_counts_zero x bs hbs]
      simp [hxb]

theorem chunksOf_200_of_length_450 {α : Type} (l : List α)
    (h : l.length = 450) :
    (chunksOf 200 l).map List.length = [200, 200, 50] := by
  have h1 : l ≠ [] := by intro e; rw [e] at h; simp at h
  have h2 : l.drop 200 ≠ [] := by
    intro e
    have := congrArg List.length e
    simp [h] at this
  have h3 : (l.drop 200).drop 200 ≠ [] := by
    intro e
    have := congrArg List.length e
    simp [h] at this
  obtain ⟨x1, xs1, e1⟩ := List.exists_cons_of_ne_nil h1
  obtain ⟨x2, xs2, e2⟩ := List.exists_cons_of_ne_nil h2
  obtain ⟨x3, xs3, e3⟩ := List.exists_cons_of_ne_nil h3
  rw [e1, chunksOf_cons 200 (by omega), ← e1, e2,
      chunksOf_cons 200 (by omega), ← e2, e3,
      chunksOf_cons 200 (by omega), ← e3]
  have h4 : ((l.drop 200).drop 200).drop 200 = [] := by
    apply List.drop_eq_nil_of_le
    simp [h]
  rw [h4]
  simp [chunksOf, List.length_take, List.length_drop, h]

/-- C4: `fetch_prices` deduplicates the ids, then issues exactly
`⌈n / BATCH_SIZE⌉` batch requests for the `n` distinct ids: the batch
list has that length, its concatenation is exactly the deduplicated id
list, every deduplicated id sits in exactly one batch, and 450 distinct
ids with `BATCH_SIZE = 200` produce exactly 3 batches of sizes 200, 200
and 50. -/
theorem fetch_prices_batching (product_ids : List Int) :
    (fetch_prices_batches product_ids).length
      = (product_ids.dedup.length + BATCH_SIZE - 1) / BATCH_SIZE
    ∧ (fetch_prices_batches product_ids).flatten = product_ids.dedup
    ∧ (∀ x ∈ product_ids.dedup,
        (fetch_prices_batches product_ids).countP
          (fun b => decide (x ∈ b)) = 1)
    ∧ (fetch_prices_batches ((List.range 450).map Int.ofNat)).map
        List.length = [200, 200, 50] := by
  refine ⟨chunksOf_length BATCH_SIZE (by decide) _,
          chunksOf_flatten BATCH_SIZE _, ?_, ?_⟩
  · intro x hx
    apply countP_mem_of_sum_counts_one
    have hflat : (fetch_prices_batches product_ids).flatten
        = product_ids.dedup := chunksOf_flatten BATCH_SIZE _
    have hcount : List.count x (fetch_prices_batches product_ids).flatten = 1 := by
      rw [hflat]
      exact List.count_eq_one_of_mem (List.nodup_dedup product_ids) hx
    rw [List.count_flatten] at hcount
    exact hcount
  · have hnodup : ((List.range 450).map Int.ofNat).Nodup :=
      (List.nodup_range 450).map (fun a b hab => Int.ofNat_inj.mp hab)
    have hded : ((List.range 450).map Int.ofNat).dedup
        = (List.range 450).map Int.ofNat := List.dedup_eq_self.mpr hnodup
    rw [fetch_prices_batches, hded]
    apply chunksOf_200_of_length_450
    simp

/-- Witness for `fetch_prices_batching`: from the ids `[5, 7, 7, 9]`,
the deduplicated id 7 lands in exactly one batch. -/
theorem fetch_prices_batching_witness :
    (fetch_prices_batches [5, 7, 7, 9]).countP
      (fun b => decide ((7 : Int) ∈ b)) = 1 :=
  (fetch_prices_batching [5, 7, 7, 9]).2.2.1 7 (by decide)

/-! ## parser.py : fetch_price_batch — response processing -/

/-- The `prices` dict built by `fetch_prices`, keyed by product id with
values `(regular_price, promo_price)`. -/
abbrev PriceMap := List (Int × Int × Int)

/-- Python `dict` key test. -/
def hasKey (m : PriceMap) (k : Int) : Bool :=
  m.any (fun kv => kv.1 = k)

/-- Python `dict` assignment `m[k] = v`: overwrite an existing binding,
otherwise append. -/
def dictInsert (m : PriceMap) (k : Int) (v : Int × Int) : PriceMap :=
  if hasKey m k then m.map (fun kv => if kv.1 = k then (k, v) else kv)
  else m ++ [(k, v)]

/-- Python `dict.get` / subscript lookup. -/
def dictLookup (m : PriceMap) (k : Int) : Option (Int × Int) :=
  (m.find? (fun kv => kv.1 = k)).map (fun kv => kv.2)

/-- One element of `response['data']['products']` as `fetch_price_batch`
reads it: the optional `active_offer_id` (`product.get(...)`, `none`
when the key is missing) and `variants[0].price.old` /
`variants[0].price.actual`. -/
structure PriceEntry where
  active_offer_id : Option Int
  price_old : Int
  price_actual : Int
deriving Repr, DecidableEq

/-- The response-processing loop of `fetch_price_batch` (parser.py):
when the response has a `data` key, walk its products in order and, for
every product whose `active_offer_id` is truthy (present and nonzero),
write `(old, actual)` into the prices dict under that server-returned
id.  A response without `data` leaves the dict unchanged. -/
def process_price_response (resp : Option (List PriceEntry))
    (prices : PriceMap) : PriceMap :=
  match resp with
  | none => prices
  | some products =>
    products.foldl (fun m product =>
      match product.active_offer_id with
      | some aid => if aid ≠ 0 then
          dictInsert m aid (product.price_old, product.price_actual)
        else m
      | none => m) prices

/-- `fetch_price_batch` (parser.py), abstracting the POST request by the
`server` oracle: the batch ids are sent (as `offers[j]` form fields) and
the returned product list — `none` for a failed or ill-shaped response —
is folded into the shared `prices` dict. -/
def fetch_price_batch (server : List Int → Option (List PriceEntry))
    (batch_ids : List Int) (prices : PriceMap) : PriceMap :=
  process_price_response (server batch_ids) prices

theorem hasKey_dictInsert_self (m : PriceMap) (k : Int) (v : Int × Int) :
    hasKey (dictInsert m k v) k = true := by
  unfold dictInsert
  split
  · next hm =>
    unfold hasKey at hm ⊢
    rw [List.any_eq_true] at hm ⊢
    obtain ⟨kv, hmem, hk⟩ := hm
    have hk1 : kv.1 = k := by simpa using hk
    refine ⟨(k, v), List.mem_map.mpr ⟨kv, hmem, ?_⟩, by simp⟩
    simp [hk1]
  · unfold hasKey
    rw [List.any_eq_true]
    exact ⟨(k, v), by simp, by simp⟩

theorem hasKey_dictInsert_mono (m : PriceMap) (k k' : Int) (v : Int × Int)
    (h : hasKey m k' = true) : hasKey (dictInsert m k v) k' = true := by
  unfold hasKey at h
  rw [List.any_eq_true] at h
  obtain ⟨kv, hmem, hk⟩ := h
  have hk1 : kv.1 = k' := by simpa using hk
  unfold dictInsert
  split
  · unfold hasKey
    rw [List.any_eq_true]
    by_cases hkk : kv.1 = k
    · exact ⟨(k, v), List.mem_map.mpr ⟨kv, hmem, by simp [hkk]⟩,
        by simp [← hk1, hkk]⟩
    · exact ⟨kv, List.mem_map.mpr ⟨kv, hmem, by simp [hkk]⟩, by simp [hk1]⟩
  · unfold hasKey
    rw [List.any_eq_true]
    exact ⟨kv, List.mem_append_left _ hmem, by simp [hk1]⟩

theorem foldl_step_preserves_key (aid : Int)
    (l : List PriceEntry) (acc : PriceMap) (h : hasKey acc aid = true) :
    hasKey (l.foldl (fun m product =>
      match product.active_offer_id with
      | some a => if a ≠ 0 then
          dictInsert m a (product.price_old, product.price_actual)
        else m
      | none => m) acc) aid = true := by
  induction l generalizing acc with
  | nil => exact h
  | cons e l ih =>
    rw [List.foldl_cons]
    apply ih
    cases he : e.active_offer_id with
    | none => simpa [he] using h
    | some a =>
      by_cases ha : a = 0
      · simpa [he, ha] using h
      · simpa [he, ha] using
          hasKey_dictInsert_mono acc a aid (e.price_old, e.price_actual) h

theorem foldl_step_adds_key (aid : Int) (e : PriceEntry)
    (l : List PriceEntry) (acc : PriceMap) (he : e ∈ l)
    (haid : e.active_offer_id = some aid) (h0 : aid ≠ 0) :
    hasKey (l.foldl (fun m product =>
      match product.active_offer_id with
      | some a => if a ≠ 0 then
          dictInsert m a (product.price_old, product.price_actual)
        else m
      | none => m) acc) aid = true := by
  induction l generalizing acc with
  | nil => cases he
  | cons x l ih =>
    rw [List.foldl_cons]
    rcases List.mem_cons.mp he with hx | hmem
    · apply foldl_step_preserves_key
      rw [← hx]
      simpa [haid, h0] using
        hasKey_dictInsert_self acc aid (e.price_old, e.price_actual)
    · exact ih _ hmem

/-- C7: the prices dict is keyed by the `active_offer_id` the server
returns, not by the requested product id: if the response of a batch
contains a product whose truthy `active_offer_id` is not among the
requested ids of that batch, that id nevertheless appears as a key of
the resulting dict. -/
theorem fetch_price_batch_keys_by_active_offer_id
    (server : List Int → Option (List PriceEntry)) (batch_ids : List Int)
    (prices : PriceMap) (products : List PriceEntry) (e : PriceEntry)
    (aid : Int) (hresp : server batch_ids = some products)
    (he : e ∈ products) (haid : e.active_offer_id = some aid)
    (h0 : aid ≠ 0) (_hnotreq : aid ∉ batch_ids) :
    hasKey (fetch_price_batch server batch_ids prices) aid = true := by
  unfold fetch_price_batch process_price_response
  rw [hresp]
  exact foldl_step_adds_key aid e products prices he haid h0

/-- Witness for `fetch_price_batch_keys_by_active_offer_id`: the batch
`[1, 2]` gets a response whose only product carries
`active_offer_id = 99`; 99 becomes a key of the dict. -/
theorem fetch_price_batch_keys_witness :
    hasKey (fetch_price_batch
      (fun _ => some [{ active_offer_id := some 99, price_old := 10,
                        price_actual := 5 }]) [1, 2] []) 99 = true :=
  fetch_price_batch_keys_by_active_offer_id _ [1, 2] []
    [{ active_offer_id := some 99, price_old := 10, price_actual := 5 }]
    { active_offer_id := some 99, price_old := 10, price_actual := 5 }
    99 rfl (by decide) rfl (by decide) (by decide)

/-! ## parser.py : combine_product_and_prices -/

/-- One price-info dict (the value stored under a product id in
`prices`), as a key/value list: `combine_product_and_prices` reads its
`regular_price` and `promo_price` keys with `dict.get(..., 0)`. -/
abbrev PriceInfoDict := List (String × Int)

/-- `info.get(key, ...)` on a price-info dict. -/
def price_info_get (info : PriceInfoDict) (key : String) : Option Int :=
  (info.find? (fun kv => kv.1 = key)).map (fun kv => kv.2)

/-- `prices.get(product.id)` on the id-keyed prices dict. -/
def prices_get (prices : List (Int × PriceInfoDict)) (k : Int) :
    Option PriceInfoDict :=
  (prices.find? (fun kv => kv.1 = k)).map (fun kv => kv.2)

/-- The per-product body of the loop in `combine_product_and_prices`
(parser.py): look the product id up in `prices`; if the result is truthy
(found and a non-empty dict) set both price fields from it (missing
sub-keys default to 0), otherwise log a warning and leave the product
untouched. -/
def combine_one (prices : List (Int × PriceInfoDict)) (p : Product) :
    Product :=
  match prices_get prices p.id with
  | some info =>
    if info ≠ [] then
      { p with regular_price := (price_info_get info "regular_price").getD 0,
               promo_price := (price_info_get info "promo_price").getD 0 }
    else p
  | none => p

/-- `combine_product_and_prices` (parser.py): update every product in
place from the prices dict and return the same list. -/
def combine_product_and_prices (products : List Product)
    (prices : List (Int × PriceInfoDict)) : List Product :=
  products.map (combine_one prices)

/-- C2: `combine_product_and_prices` returns exactly one output product
per input product — same length, same ids in the same positions, every
input product present (as its combined form) in the output; a product
whose id maps to a price record gets `regular_price` and `promo_price`
set from that record, and a product whose id is not a key of `prices`
is returned completely unchanged (in particular its price fields stay
at their 0 defaults). -/
theorem combine_keeps_every_product (products : List Product)
    (prices : List (Int × PriceInfoDict)) :
    (combine_product_and_prices products prices).length = products.length
    ∧ (combine_product_and_prices products prices).map (fun p => p.id)
        = products.map (fun p => p.id)
    ∧ (∀ p ∈ products,
        combine_one prices p ∈ combine_product_and_prices products prices)
    ∧ (∀ p ∈ products, prices_get prices p.id = none →
        combine_one prices p = p)
    ∧ (∀ p ∈ products, ∀ info rp pp,
        prices_get prices p.id = some info →
        price_info_get info "regular_price" = some rp →
        price_info_get info "promo_price" = some pp →
        combine_one prices p
          = { p with regular_price := rp, promo_price := pp }) := by
  refine ⟨by simp [combine_product_and_prices], ?_, ?_, ?_, ?_⟩
  · rw [combine_product_and_prices, List.map_map]
    apply List.map_congr_left
    intro p _
    show (combine_one prices p).id = p.id
    unfold combine_one
    cases prices_get prices p.id with
    | none => rfl
    | some info => by_cases hi : info = [] <;> simp [hi]
  · intro p hp
    exact List.mem_map.mpr ⟨p, hp, rfl⟩
  · intro p _ hnone
    unfold combine_one
    rw [hnone]
  · intro p _ info rp pp hinfo hrp hpp
    have hne : info ≠ [] := by
      intro e
      rw [e] at hrp
      simp [price_info_get] at hrp
    unfold combine_one
    rw [hinfo]
    simp [hne, hrp, hpp]

/-- Witness for `combine_keeps_every_product`: two products, a price
record for id 1 only; the output keeps both, prices id 1 and leaves
id 2 untouched. -/
theorem combine_keeps_every_product_witness :
    (combine_product_and_prices
        [{ id := 1, name := "a", link := "u1" },
         { id := 2, name := "b", link := "u2" }]
        [(1, [("regular_price", 100), ("promo_price", 80)])]).length = 2
    ∧ combine_one [(1, [("regular_price", 100), ("promo_price", 80)])]
        { id := 2, name := "b", link := "u2" }
      = { id := 2, name := "b", link := "u2" }
    ∧ combine_one [(1, [("regular_price", 100), ("promo_price", 80)])]
        { id := 1, name := "a", link := "u1" }
      = { id := 1, name := "a", link := "u1",
          regular_price := 100, promo_price := 80 } := by
  refine ⟨(combine_keeps_every_product _ _).1, ?_, ?_⟩
  · exact (combine_keeps_every_product
      [{ id := 1, name := "a", link := "u1" },
       { id := 2, name := "b", link := "u2" }]
      [(1, [("regular_price", 100), ("promo_price", 80)])]).2.2.2.1
      { id := 2, name := "b", link := "u2" } (by decide) (by decide)
  · exact (combine_keeps_every_product
      [{ id := 1, name := "a", link := "u1" },
       { id := 2, name := "b", link := "u2" }]
      [(1, [("regular_price", 100), ("promo_price", 80)])]).2.2.2.2
      { id := 1, name := "a", link := "u1" } (by decide)
      [("regular_price", 100), ("promo_price", 80)] 100 80
      (by decide) (by decide) (by decide)
